import Mathlib

/-
Shallow embedding of src/src/invest_Ecalendar/scraper.py
(class InvestingCalendarScraper).

Modelling conventions:
- Python `datetime` values that carry only a calendar date are modelled as
  integer day numbers (days since 1970-01-01); `timedelta(days=n)` is `+ n`.
  `dateToDays`/`daysToDate` implement the standard civil-calendar
  conversion so that concrete scenarios can use real dates.
- String parsing (`strptime` with the patterns used by the scraper,
  `str.strip()`, `str.split()`) is implemented over Lean strings.
- Side-effecting collaborators (Selenium driver, filesystem) are modelled
  as explicit inputs: an `Env` of oracle functions for the browser and a
  `Store` association list for the output directory, where writing a file
  replaces any previous file of the same name.
- Python exceptions are modelled as `Option`/branching: a step that the
  code wraps in try/except is a total function whose failing outcomes are
  values.
-/

namespace InvestEC

/-! ## Calendar dates -/

/-- A calendar date (year, month, day), the coordinates held by a Python
`datetime` whose time part is midnight. -/
structure Date where
  y : Int
  m : Int
  d : Int
deriving DecidableEq

def isLeap (y : Int) : Bool := (y % 4 == 0 && y % 100 != 0) || y % 400 == 0

def daysInMonth (y m : Int) : Int :=
  if m = 2 then (if isLeap y then 29 else 28)
  else if m = 4 ∨ m = 6 ∨ m = 9 ∨ m = 11 then 30
  else 31

/-- Day number of a civil date, counted from 1970-01-01 (the standard
days-from-civil algorithm). This realises `datetime` subtraction and
ordering on dates. -/
def dateToDays (y m d : Int) : Int :=
  let y' := if m ≤ 2 then y - 1 else y
  let era := (if 0 ≤ y' then y' else y' - 399) / 400
  let yoe := y' - era * 400
  let mp := (m + 9) % 12
  let doy := (153 * mp + 2) / 5 + d - 1
  let doe := yoe * 365 + yoe / 4 - yoe / 100 + doy
  era * 146097 + doe - 719468

/-- Inverse of `dateToDays` (civil-from-days), used to model
`strftime('%Y-%m-%d')` on a datetime that the code only knows as an
offset from another date. -/
def daysToDate (z : Int) : Date :=
  let z' := z + 719468
  let era := (if 0 ≤ z' then z' else z' - 146096) / 146097
  let doe := z' - era * 146097
  let yoe := (doe - doe / 1460 + doe / 36524 - doe / 146096) / 365
  let y := yoe + era * 400
  let doy := doe - (365 * yoe + yoe / 4 - yoe / 100)
  let mp := (5 * doy + 2) / 153
  let d := doy - (153 * mp + 2) / 5 + 1
  let m := mp + (if mp < 10 then 3 else -9)
  ⟨y + (if m ≤ 2 then 1 else 0), m, d⟩

def Date.toDays (dt : Date) : Int := dateToDays dt.y dt.m dt.d

def pad2 (n : Int) : String := if n < 10 then "0" ++ toString n else toString n

def pad4 (n : Int) : String :=
  if n < 10 then "000" ++ toString n
  else if n < 100 then "00" ++ toString n
  else if n < 1000 then "0" ++ toString n
  else toString n

/-- Formats a date as `strftime('%Y-%m-%d')` does. -/
def Date.format (dt : Date) : String := pad4 dt.y ++ "-" ++ pad2 dt.m ++ "-" ++ pad2 dt.d

/-- Formats a day number as a `YYYY-MM-DD` string. -/
def fmtDay (n : Int) : String := (daysToDate n).format

/-! ## ChunkPlanner: `_generate_date_chunks` (scraper.py lines 93-108)

The Python loop

    current = start
    while current <= end:
        chunk_end = current + timedelta(days=interval_days - 1)
        if chunk_end > end: chunk_end = end
        chunks.append((current, chunk_end))
        current = chunk_end + timedelta(days=1)

is embedded with an explicit fuel parameter: `none` means the loop has not
terminated within `fuel` iterations, so nontermination of the source loop
is `∀ fuel, genChunksF ... = none`. -/

def genChunksF (e interval : Int) : Nat → Int → Option (List (Int × Int))
  | 0, _ => none
  | fuel + 1, current =>
    if current ≤ e then
      match genChunksF e interval fuel
          ((if current + (interval - 1) > e then e else current + (interval - 1)) + 1) with
      | some rest =>
          some ((current, if current + (interval - 1) > e then e else current + (interval - 1)) :: rest)
      | none => none
    else
      some []

/-- `_generate_date_chunks`: for `interval ≥ 1` the loop runs at most
`e - s + 1` iterations, so this fuel is sufficient exactly when the
Python loop terminates. -/
def generateDateChunks (s e interval : Int) : Option (List (Int × Int)) :=
  genChunksF e interval ((e - s).toNat + 2) s

/-- Every chunk except the last spans exactly `interval` days. -/
def sizesOk (interval : Int) : List (Int × Int) → Prop
  | [] => True
  | [_] => True
  | a :: b :: t => a.2 - a.1 + 1 = interval ∧ sizesOk interval (b :: t)

/-- The correctness bundle for a chunk list over window `[s, e]`:
nonempty, starts at `s`, ends at `e`, chunks are well-formed and at most
`interval` days, contiguous, strictly ordered (hence non-overlapping),
their union is exactly the window, and all non-last chunks span exactly
`interval` days. -/
def PlanOk (s e interval : Int) (l : List (Int × Int)) : Prop :=
  l ≠ [] ∧
  l.head?.map Prod.fst = some s ∧
  l.getLast?.map Prod.snd = some e ∧
  (∀ c ∈ l, c.1 ≤ c.2 ∧ c.2 ≤ e ∧ c.2 - c.1 + 1 ≤ interval) ∧
  List.Chain' (fun a b => a.2 + 1 = b.1) l ∧
  List.Pairwise (fun a b : Int × Int => a.2 < b.1) l ∧
  (∀ x : Int, (∃ c ∈ l, c.1 ≤ x ∧ x ≤ c.2) ↔ s ≤ x ∧ x ≤ e) ∧
  sizesOk interval l

lemma genChunksF_succ_le (e interval : Int) (f : Nat) (current : Int) (h : current ≤ e) :
    genChunksF e interval (f + 1) current =
      match genChunksF e interval f
          ((if current + (interval - 1) > e then e else current + (interval - 1)) + 1) with
      | some rest =>
          some ((current, if current + (interval - 1) > e then e else current + (interval - 1)) :: rest)
      | none => none := by
  simp only [genChunksF]
  rw [if_pos h]

lemma genChunksF_succ_gt (e interval : Int) (f : Nat) (current : Int) (h : ¬ current ≤ e) :
    genChunksF e interval (f + 1) current = some [] := by
  simp only [genChunksF]
  rw [if_neg h]

lemma planOk_single (s e interval : Int) (h1 : s ≤ e) (h2 : e - s + 1 ≤ interval) :
    PlanOk s e interval [(s, e)] := by
  refine ⟨by simp, rfl, rfl, ?_, ?_, ?_, ?_, ?_⟩
  · intro c hc
    simp only [List.mem_singleton] at hc
    subst hc
    exact ⟨h1, le_refl _, h2⟩
  · simp
  · simp
  · intro x
    simp only [List.mem_singleton]
    constructor
    · rintro ⟨c, rfl, h3, h4⟩
      exact ⟨h3, h4⟩
    · rintro ⟨h3, h4⟩
      exact ⟨(s, e), rfl, h3, h4⟩
  · show True
    trivial

lemma planOk_cons (s e interval : Int) (hi : 1 ≤ interval) (_hs : s ≤ e)
    (hlt : s + (interval - 1) < e) (rest : List (Int × Int))
    (hPO : PlanOk (s + (interval - 1) + 1) e interval rest) :
    PlanOk s e interval ((s, s + (interval - 1)) :: rest) := by
  obtain ⟨hne, hhead, hlast, hbounds, hchain, hpw, hcov, hsz⟩ := hPO
  obtain ⟨r, rs, rfl⟩ : ∃ r rs, rest = r :: rs := by
    cases rest with
    | nil => exact absurd rfl hne
    | cons r rs => exact ⟨r, rs, rfl⟩
  have hr1 : r.1 = s + (interval - 1) + 1 := by
    simp only [List.head?_cons, Option.map_some'] at hhead
    exact Option.some.inj hhead
  refine ⟨by simp, rfl, ?_, ?_, ?_, ?_, ?_, ?_⟩
  · rw [List.getLast?_cons_cons]
    exact hlast
  · intro c hc
    rcases List.mem_cons.mp hc with rfl | hc'
    · exact ⟨by omega, by omega, by omega⟩
    · exact hbounds c hc'
  · rw [List.chain'_cons]
    exact ⟨by omega, hchain⟩
  · rw [List.pairwise_cons]
    refine ⟨?_, hpw⟩
    intro b hb
    have hble : s + (interval - 1) + 1 ≤ b.1 ∧ b.1 ≤ e :=
      (hcov b.1).mp ⟨b, hb, le_refl _, (hbounds b hb).1⟩
    omega
  · intro x
    constructor
    · rintro ⟨c, hc, h1, h2⟩
      rcases List.mem_cons.mp hc with rfl | hc'
      · constructor <;> omega
      · have := (hcov x).mp ⟨c, hc', h1, h2⟩
        omega
    · rintro ⟨hx1, hx2⟩
      by_cases hxc : x ≤ s + (interval - 1)
      · exact ⟨(s, s + (interval - 1)), List.mem_cons_self _ _, hx1, hxc⟩
      · obtain ⟨c, hc, h1, h2⟩ := (hcov x).mpr ⟨by omega, hx2⟩
        exact ⟨c, List.mem_cons_of_mem _ hc, h1, h2⟩
  · exact ⟨by omega, hsz⟩

lemma genChunksF_ok (e interval : Int) (hi : 1 ≤ interval) :
    ∀ fuel current, current ≤ e → (e - current).toNat + 2 ≤ fuel →
    ∃ l, genChunksF e interval fuel current = some l ∧ PlanOk current e interval l := by
  intro fuel
  induction fuel with
  | zero =>
    intro current _ hf
    exact absurd hf (by omega)
  | succ f ih =>
    intro current hc hf
    obtain ⟨f', rfl⟩ : ∃ f', f = f' + 1 := ⟨f - 1, by omega⟩
    by_cases hgt : current + (interval - 1) > e
    · refine ⟨[(current, e)], ?_, planOk_single current e interval hc (by omega)⟩
      rw [genChunksF_succ_le e interval _ current hc, if_pos hgt,
        genChunksF_succ_gt e interval f' (e + 1) (by omega)]
    · by_cases heq : current + (interval - 1) = e
      · refine ⟨[(current, e)], ?_, planOk_single current e interval hc (by omega)⟩
        rw [genChunksF_succ_le e interval _ current hc, if_neg hgt, heq,
          genChunksF_succ_gt e interval f' (e + 1) (by omega)]
      · have hlt : current + (interval - 1) < e := by omega
        obtain ⟨rest, hrec, hPO⟩ := ih (current + (interval - 1) + 1) (by omega) (by omega)
        refine ⟨(current, current + (interval - 1)) :: rest, ?_,
          planOk_cons current e interval hi hc hlt rest hPO⟩
        rw [genChunksF_succ_le e interval _ current hc, if_neg hgt, hrec]

/-! ## TableParser: `_parse_data` (scraper.py lines 294-354)

Row classification mirrors the source: a `tr` holding a `td.theDay` is a
section header (its `label` is that cell's text), a `tr` whose class list
contains `js-event-item` is a data row, anything else is ignored. -/

/-- Cells of a data row; each field is the result of the corresponding
`row.find(...)` lookup, `none` meaning the element is absent (so that
reading `.text` on it raises). `flagCurSpan` is the `span` inside
`td.flagCur`: `none` when the span is absent, `some t` when present with
`t` its optional `title` attribute. `sentiment` is the count of
`grayFullBullishIcon` icons when `td.sentiment` exists. -/
structure DataCells where
  time : Option String
  flagCur : Option String
  flagCurSpan : Option (Option String)
  sentiment : Option Nat
  event : Option String
  act : Option String
  fore : Option String
  prev : Option String
deriving DecidableEq

inductive RawRow where
  | header (label : String)
  | data (cells : DataCells)
  | other
deriving DecidableEq

/-- One normalized output item, mirroring the dict built at scraper.py
lines 339-350. `country` is `span.get('title')`: `none` when the span has
no title attribute (Python `None`). -/
structure Record where
  date : String
  time : String
  timestamp : String
  country : Option String
  currency : String
  importance : Nat
  event : String
  actual : String
  forecast : String
  previous : String
deriving DecidableEq

/-- Splitting a character list at every separator, keeping empty pieces,
as Python `str.split(sep)` does. Defined structurally so that concrete
scenarios evaluate inside the kernel. -/
def splitChars (p : Char → Bool) : List Char → List (List Char)
  | [] => [[]]
  | c :: cs =>
    if p c then [] :: splitChars p cs
    else
      match splitChars p cs with
      | [] => [[c]]
      | r :: rs => (c :: r) :: rs

/-- Python `str.strip()`: drop leading and trailing whitespace. -/
def trimChars (l : List Char) : List Char :=
  ((l.dropWhile Char.isWhitespace).reverse.dropWhile Char.isWhitespace).reverse

def pyStrip (s : String) : String := ⟨trimChars s.data⟩

/-- Python `str.split()` with no separator: split on whitespace runs and
drop empty pieces. -/
def pySplitWS (s : String) : List String :=
  ((splitChars (fun c => c.isWhitespace) s.data).map String.mk).filter fun t => t ≠ ""

def digitsVal (cs : List Char) : Nat :=
  cs.foldl (fun a c => a * 10 + (c.toNat - 48)) 0

/-- Python `datetime.strptime(s, '%Y年%m月%d日')`: exactly four year
digits, one or two month digits, one or two day digits, the three literal
characters in place, nothing left over, and the usual `datetime` range
validation (month 1-12, day within the month, year at least 1). `none`
models the `ValueError` path. -/
def strptimeHansYMD (s : String) : Option Date :=
  let cs := s.toList
  let ys := cs.takeWhile Char.isDigit
  match cs.dropWhile Char.isDigit with
  | '年' :: r2 =>
    let ms := r2.takeWhile Char.isDigit
    match r2.dropWhile Char.isDigit with
    | '月' :: r4 =>
      let ds := r4.takeWhile Char.isDigit
      match r4.dropWhile Char.isDigit with
      | ['日'] =>
        if ys.length = 4 ∧ 1 ≤ ms.length ∧ ms.length ≤ 2 ∧ 1 ≤ ds.length ∧ ds.length ≤ 2 then
          let y : Int := digitsVal ys
          let m : Int := digitsVal ms
          let d : Int := digitsVal ds
          if 1 ≤ y ∧ 1 ≤ m ∧ m ≤ 12 ∧ 1 ≤ d ∧ d ≤ daysInMonth y m then
            some ⟨y, m, d⟩
          else none
        else none
      | _ => none
    | _ => none
  | _ => none

/-- The header branch of the scan (scraper.py lines 310-318):

    parts = date_cell.text.strip().split()
    if parts: current_date = datetime.strptime(parts[0], '%Y年%m月%d日')
    (ValueError caught: current_date = None)

With no token the state is left unchanged; with a token, the state becomes
the token's parse result (`none` on failure). -/
def headerStep (label : String) (cur : Option Date) : Option Date :=
  match pySplitWS (pyStrip label) with
  | [] => cur
  | t :: _ => strptimeHansYMD t

/-- The spec's reading of header handling: parse the whole label into a
date. Used only to state what the spec claims, for comparison with
`headerStep`, which is what the code does. -/
def specParseLabel (label : String) : Option Date :=
  strptimeHansYMD (pyStrip label)

/-- Field extraction for one data row (scraper.py lines 323-350). The
`try` block reads `.text` of `time`, `flagCur`, `event`, `act`, `fore`,
`prev` (raising when absent, hence `none` overall), tolerates a missing
sentiment cell (importance 0) and a missing span or title (country ""
or null). -/
def extractRecord (dt : Date) (c : DataCells) : Option Record :=
  match c.time with
  | none => none
  | some timeRaw =>
    match c.flagCur with
    | none => none
    | some curRaw =>
      match c.event, c.act, c.fore, c.prev with
      | some ev, some ac, some fo, some pr =>
        some
          { date := dt.format
            time := pyStrip timeRaw
            timestamp := dt.format ++ " " ++ pyStrip timeRaw
            country := match c.flagCurSpan with
              | none => some ""
              | some titleAttr => titleAttr
            currency := pyStrip curRaw
            importance := c.sentiment.getD 0
            event := pyStrip ev
            actual := pyStrip ac
            forecast := pyStrip fo
            previous := pyStrip pr }
      | _, _, _, _ => none

/-- The scan loop of `_parse_data`: one left-to-right pass carrying
`current_date : Option Date`; window bounds are the day numbers of the
parsed `start_date_str` / `end_date_str`. A data row emits a record only
when the carried date exists, lies inside the window, and extraction
succeeds. -/
def parseDataAux (sd ed : Int) : List RawRow → Option Date → List Record
  | [], _ => []
  | .header label :: rest, cur => parseDataAux sd ed rest (headerStep label cur)
  | .data cells :: rest, cur =>
    match cur with
    | none => parseDataAux sd ed rest none
    | some dt =>
      if sd ≤ dt.toDays ∧ dt.toDays ≤ ed then
        match extractRecord dt cells with
        | some r => r :: parseDataAux sd ed rest (some dt)
        | none => parseDataAux sd ed rest (some dt)
      else parseDataAux sd ed rest (some dt)
  | .other :: rest, cur => parseDataAux sd ed rest cur

/-- `_parse_data` on the row sequence of the loaded table (the
table-missing early return, which yields `[]` before any scan, is the
caller's concern and carries no state). -/
def parseData (rows : List RawRow) (sd ed : Int) : List Record :=
  parseDataAux sd ed rows none

/-- State transition of the scan for a single row. -/
def rowState (cur : Option Date) : RawRow → Option Date
  | .header label => headerStep label cur
  | _ => cur

/-- Carried section date after scanning `rows` from state `cur`. -/
def stateAfter (rows : List RawRow) (cur : Option Date) : Option Date :=
  rows.foldl rowState cur

/-! ## ScrollLoader: `_scroll_to_load` (scraper.py lines 256-292)

The browser is an oracle: iteration `k` of the while loop observes the
text of the last `tr.theDay` row (if any) and the page height after the
`k`-th scroll. The loop carries `last_height` and `attempts`, with
`max_scroll_attempts = 30`. -/

/-- What the page shows during one loop iteration: `lastDay` is
`date_rows[-1].text` (`none` when `find_elements` returns nothing or the
lookup raises, both swallowed by the inner try/except), `height` is
`document.body.scrollHeight` after the scroll. -/
structure ScrollObs where
  lastDay : Option String
  height : Int
deriving DecidableEq

/-- How the while loop ended: the target-date break (line 279), the
stalled-height break (line 288), or falling out of `attempts <
max_scroll_attempts`. The source does not reify this value; it is the
embedding's record of which exit was taken. -/
inductive ScrollExit where
  | reachedDate
  | stalled
  | maxedOut
deriving DecidableEq

/-- The target-date test of lines 271-282: take the text before the first
space (`text.split(' ')[0]`), parse it as `%Y年%m月%d日`, and compare with
the chunk's end date; any failure along the way means the test is simply
not satisfied (nested try/except pass). -/
def dateStopHit (endD : Int) (o : ScrollObs) : Bool :=
  match o.lastDay with
  | none => false
  | some t =>
    match strptimeHansYMD (String.mk ((splitChars (fun c => c = ' ') t.data).headD [])) with
    | none => false
    | some dt => endD ≤ dt.toDays

/-- Height the loop compares against at iteration `k`: the initial height
read before the loop for `k = 0`, otherwise the height seen at the
previous iteration. -/
def prevHeight (obs : Nat → ScrollObs) (initH : Int) : Nat → Int
  | 0 => initH
  | j + 1 => (obs j).height

/-- The while loop itself; `r` is the remaining attempt budget,
`lastH` the carried `last_height`, `k` the number of scrolls performed so
far. Returns how the loop exited and how many scroll iterations ran. -/
def scrollAux (obs : Nat → ScrollObs) (endD : Int) : Nat → Int → Nat → ScrollExit × Nat
  | 0, _, k => (.maxedOut, k)
  | r + 1, lastH, k =>
    if dateStopHit endD (obs k) then (.reachedDate, k + 1)
    else if (obs k).height = lastH then (.stalled, k + 1)
    else scrollAux obs endD r (obs k).height (k + 1)

/-- `_scroll_to_load` for one chunk: at most 30 iterations starting from
the pre-loop height reading. The surrounding try/except means the method
never raises and returns nothing; the exit kind and iteration count are
what the embedding observes. -/
def scrollToLoad (obs : Nat → ScrollObs) (endD : Int) (initH : Int) : ScrollExit × Nat :=
  scrollAux obs endD 30 initH 0

/-! ## ChunkRunner and RangeHarvester: `_scrape_single_range` (lines
153-188), `_save_data` (lines 356-358) and `run` (lines 110-151)

The output directory is a store keyed by filename; `_save_data` opens the
file with mode `'w'`, so a write replaces any previous file of the same
name. Browser-dependent steps are oracles in `Env`; a `false` oracle
models the step raising, which `_scrape_single_range` catches, logging
and returning `None`. -/

/-- The JSON document written for one chunk (`final_output`,
lines 172-180). -/
structure Payload where
  crawledAt : String
  filterStart : String
  filterEnd : String
  count : Nat
  data : List Record
deriving DecidableEq

/-- The output directory: filename to file content, newest first. -/
abbrev Store := List (String × Payload)

/-- Writing a file: mode `'w'` truncates, so the new content replaces any
existing file with this name. -/
def storeWrite (st : Store) (k : String) (v : Payload) : Store :=
  (k, v) :: st.filter fun p => p.1 ≠ k

/-- Outcome of the initial `driver.get(base_url)` (lines 125-129): loaded,
`TimeoutException` (caught: the script stops the load and continues), or
some other fatal driver error, which the outer handler re-raises. -/
inductive PageLoad where
  | ok
  | timeout
  | fatal (msg : String)
deriving DecidableEq

/-- The browsing-session collaborators for one run, per chunk
`(start, end)` in day numbers: whether `_apply_date_filters` succeeds,
the scroll observations, the initial page height, the table rows present
after `k` scroll iterations, and whether the filesystem write succeeds. -/
structure Env where
  pageLoad : PageLoad
  dateFilterOk : Int × Int → Bool
  obs : Int × Int → Nat → ScrollObs
  initH : Int × Int → Int
  rowsAfter : Int × Int → Nat → List RawRow
  writeOk : Int × Int → Bool

/-- Artifact name for a chunk (line 170): the formatted start date, an
underscore, the formatted end date, and the fixed suffix. The
`replace('/', '-')` of lines 160-161 is the identity on `%Y-%m-%d`
strings. -/
def chunkFilename (c : Int × Int) : String :=
  fmtDay c.1 ++ "_" ++ fmtDay c.2 ++ "_Ecalendar.json"

/-- Content written for a chunk, given the crawl timestamp `t`
(`datetime.now()` at line 174): the records parsed from whatever the
scroll loop loaded. -/
def chunkPayload (env : Env) (t : String) (c : Int × Int) : Payload :=
  let k := (scrollToLoad (env.obs c) c.2 (env.initH c)).2
  let data := parseData (env.rowsAfter c k) c.1 c.2
  ⟨t, fmtDay c.1, fmtDay c.2, data.length, data⟩

/-- `_scrape_single_range`: apply the date filter (raise caught: return
`None` with nothing written), scroll, parse, and write the file (a write
error is likewise caught: `None`, nothing durably written). On success the
filename is returned. The scroll step never raises and its exit kind is
not consulted. -/
def scrapeSingleRange (env : Env) (t : String) (c : Int × Int) (st : Store) :
    Option String × Store :=
  if env.dateFilterOk c then
    if env.writeOk c then
      (some (chunkFilename c), storeWrite st (chunkFilename c) (chunkPayload env t c))
    else (none, st)
  else (none, st)

/-- The chunk loop of `run` (lines 134-141): every chunk is attempted in
order; a `None` result just contributes no filename. -/
def runChunks (env : Env) (t : String) : List (Int × Int) → Store → List String × Store
  | [], st => ([], st)
  | c :: cs, st =>
    let r := scrapeSingleRange env t c st
    let rest := runChunks env t cs r.2
    (match r.1 with
     | some f => f :: rest.1
     | none => rest.1, rest.2)

/-- `run` over an already-planned chunk list: a fatal initial page load is
logged and re-raised (`raise e` at line 149, after `close()` in the
`finally`), modelled as `Except.error`; otherwise the chunk loop runs to
completion and the generated file list is returned. The popup and country
-filter steps swallow their own errors and are not modelled. -/
def runHarvest (env : Env) (t : String) (cs : List (Int × Int)) (st : Store) :
    Except String (List String) × Store :=
  match env.pageLoad with
  | .fatal msg => (.error msg, st)
  | .ok =>
    let r := runChunks env t cs st
    (.ok r.1, r.2)
  | .timeout =>
    let r := runChunks env t cs st
    (.ok r.1, r.2)

/-! ## Helper lemmas: planner -/

lemma genChunksF_no_fuel (e interval : Int) (hi : interval ≤ 0) :
    ∀ fuel current, current ≤ e → genChunksF e interval fuel current = none := by
  intro fuel
  induction fuel with
  | zero => intro current _; rfl
  | succ f ih =>
    intro current h
    rw [genChunksF_succ_le e interval f current h,
      if_neg (by omega : ¬ current + (interval - 1) > e),
      ih (current + (interval - 1) + 1) (by omega)]

/-! ## Helper lemmas: parser -/

lemma stateAfter_nil (cur : Option Date) : stateAfter [] cur = cur := rfl

lemma stateAfter_cons (r : RawRow) (rows : List RawRow) (cur : Option Date) :
    stateAfter (r :: rows) cur = stateAfter rows (rowState cur r) := rfl

lemma parseDataAux_append (sd ed : Int) (pre post : List RawRow) :
    ∀ cur, parseDataAux sd ed (pre ++ post) cur =
      parseDataAux sd ed pre cur ++ parseDataAux sd ed post (stateAfter pre cur) := by
  induction pre with
  | nil => intro cur; simp [parseDataAux, stateAfter_nil]
  | cons r rest ih =>
    intro cur
    cases r with
    | header label =>
      simp only [List.cons_append, parseDataAux, stateAfter_cons, rowState, List.nil_append]
      exact ih _
    | other =>
      simp only [List.cons_append, parseDataAux, stateAfter_cons, rowState, List.nil_append]
      exact ih _
    | data cells =>
      rw [stateAfter_cons]
      show parseDataAux sd ed (.data cells :: (rest ++ post)) cur = _
      cases cur with
      | none =>
        simp only [parseDataAux, rowState]
        exact ih _
      | some dt =>
        by_cases hw : sd ≤ dt.toDays ∧ dt.toDays ≤ ed
        · cases hex : extractRecord dt cells with
          | some r0 =>
            simp only [parseDataAux, rowState, if_pos hw, hex]
            rw [ih (some dt)]
            simp
          | none =>
            simp only [parseDataAux, rowState, if_pos hw, hex]
            exact ih _
        · simp only [parseDataAux, rowState, if_neg hw]
          exact ih _

lemma extractRecord_shape (dt : Date) (c : DataCells) (r : Record)
    (h : extractRecord dt c = some r) :
    r.date = dt.format ∧ r.timestamp = dt.format ++ " " ++ r.time := by
  rcases c with ⟨t?, fc?, sp?, se?, ev?, ac?, fo?, pr?⟩
  cases t? <;> cases fc? <;> cases ev? <;> cases ac? <;> cases fo? <;> cases pr? <;>
    simp only [extractRecord] at h
  all_goals first
    | exact Option.noConfusion h
    | · have hr := Option.some.inj h
        subst hr
        exact ⟨rfl, rfl⟩

lemma parse_record_shape (sd ed : Int) :
    ∀ rows cur r, r ∈ parseDataAux sd ed rows cur →
      ∃ dt : Date, sd ≤ dt.toDays ∧ dt.toDays ≤ ed ∧ r.date = dt.format ∧
        r.timestamp = dt.format ++ " " ++ r.time := by
  intro rows
  induction rows with
  | nil => intro cur r h; simp [parseDataAux] at h
  | cons row rest ih =>
    intro cur r h
    cases row with
    | header label =>
      simp only [parseDataAux] at h
      exact ih _ r h
    | other =>
      simp only [parseDataAux] at h
      exact ih _ r h
    | data cells =>
      cases cur with
      | none =>
        simp only [parseDataAux] at h
        exact ih _ r h
      | some dt =>
        simp only [parseDataAux] at h
        by_cases hw : sd ≤ dt.toDays ∧ dt.toDays ≤ ed
        · rw [if_pos hw] at h
          cases hex : extractRecord dt cells with
          | none =>
            rw [hex] at h
            exact ih _ r h
          | some r0 =>
            rw [hex] at h
            rcases List.mem_cons.mp h with rfl | h'
            · obtain ⟨hd, ht⟩ := extractRecord_shape dt cells r hex
              exact ⟨dt, hw.1, hw.2, hd, ht⟩
            · exact ih _ r h'
        · rw [if_neg hw] at h
          exact ih _ r h

lemma parse_drop_data (sd ed : Int) (cells : DataCells) (post : List RawRow) :
    ∀ cur, (cur = none ∨
        (∃ dt, cur = some dt ∧ ¬ (sd ≤ dt.toDays ∧ dt.toDays ≤ ed)) ∨
        (∃ dt, cur = some dt ∧ extractRecord dt cells = none)) →
      parseDataAux sd ed (.data cells :: post) cur = parseDataAux sd ed post cur := by
  intro cur hcur
  rcases hcur with rfl | h
  · simp only [parseDataAux]
  · rcases h with ⟨dt, rfl, hw⟩ | ⟨dt, rfl, hex⟩
    · simp only [parseDataAux, if_neg hw]
    · by_cases hw : sd ≤ dt.toDays ∧ dt.toDays ≤ ed
      · simp only [parseDataAux, if_pos hw, hex]
      · simp only [parseDataAux, if_neg hw]

/-! ## Helper lemmas: scroll loop -/

lemma scrollAux_count_le (obs : Nat → ScrollObs) (endD : Int) :
    ∀ r lastH k, (scrollAux obs endD r lastH k).2 ≤ k + r := by
  intro r
  induction r with
  | zero => intro lastH k; simp [scrollAux]
  | succ r ih =>
    intro lastH k
    simp only [scrollAux]
    by_cases h1 : dateStopHit endD (obs k) = true
    · rw [if_pos h1]; omega
    · rw [if_neg h1]
      by_cases h2 : (obs k).height = lastH
      · rw [if_pos h2]; omega
      · rw [if_neg h2]
        have := ih (obs k).height (k + 1)
        omega

lemma scrollAux_stall (obs : Nat → ScrollObs) (endD initH : Int) :
    ∀ r k m, k ≤ m → m < k + r →
      (∀ j, k ≤ j → j < m →
        dateStopHit endD (obs j) = false ∧ (obs j).height ≠ prevHeight obs initH j) →
      dateStopHit endD (obs m) = false → (obs m).height = prevHeight obs initH m →
      scrollAux obs endD r (prevHeight obs initH k) k = (.stalled, m + 1) := by
  intro r
  induction r with
  | zero => intro k m h1 h2 _ _ _; omega
  | succ r ih =>
    intro k m h1 h2 hpre hstop hstall
    by_cases hkm : k = m
    · subst hkm
      simp only [scrollAux]
      rw [hstop]
      simp only [Bool.false_eq_true, if_false, if_pos hstall]
    · have hk : k < m := by omega
      obtain ⟨hst, hne⟩ := hpre k (le_refl k) hk
      simp only [scrollAux]
      rw [hst]
      simp only [Bool.false_eq_true, if_false, if_neg hne]
      have hnext : (obs k).height = prevHeight obs initH (k + 1) := rfl
      rw [hnext]
      exact ih (k + 1) m (by omega) (by omega) (fun j hj1 hj2 => hpre j (by omega) hj2)
        hstop hstall

/-! ## Helper lemmas: harvester -/

lemma scrapeSingleRange_filterFail (env : Env) (t : String) (c : Int × Int) (st : Store)
    (h : env.dateFilterOk c = false) :
    scrapeSingleRange env t c st = (none, st) := by
  unfold scrapeSingleRange
  rw [h]
  simp

lemma scrapeSingleRange_success (env : Env) (t : String) (c : Int × Int) (st : Store)
    (h1 : env.dateFilterOk c = true) (h2 : env.writeOk c = true) :
    scrapeSingleRange env t c st =
      (some (chunkFilename c), storeWrite st (chunkFilename c) (chunkPayload env t c)) := by
  unfold scrapeSingleRange
  rw [h1, h2]
  simp

lemma scrapeSingleRange_fst_const (env : Env) (t t' : String) (c : Int × Int)
    (st st' : Store) :
    (scrapeSingleRange env t c st).1 = (scrapeSingleRange env t' c st').1 := by
  unfold scrapeSingleRange
  by_cases h1 : env.dateFilterOk c = true
  · rw [h1]
    by_cases h2 : env.writeOk c = true
    · rw [h2]; simp
    · simp only [Bool.not_eq_true] at h2
      rw [h2]; simp
  · simp only [Bool.not_eq_true] at h1
    rw [h1]; simp

lemma runChunks_fst_filterMap (env : Env) (t : String) :
    ∀ cs st, (runChunks env t cs st).1 =
      cs.filterMap fun c => (scrapeSingleRange env t c []).1 := by
  intro cs
  induction cs with
  | nil => intro st; rfl
  | cons c cs ih =>
    intro st
    simp only [runChunks, List.filterMap_cons]
    rw [ih, scrapeSingleRange_fst_const env t t c st []]
    cases (scrapeSingleRange env t c []).1 <;> rfl

lemma runChunks_fst_const (env : Env) (t t' : String) (cs : List (Int × Int))
    (st st' : Store) :
    (runChunks env t cs st).1 = (runChunks env t' cs st').1 := by
  rw [runChunks_fst_filterMap, runChunks_fst_filterMap]
  apply List.filterMap_congr
  intro c _
  exact scrapeSingleRange_fst_const env t t' c [] []

lemma runChunks_skip (env : Env) (t : String) (c : Int × Int)
    (hfail : env.dateFilterOk c = false) :
    ∀ pre post st, runChunks env t (pre ++ c :: post) st = runChunks env t (pre ++ post) st := by
  intro pre
  induction pre with
  | nil =>
    intro post st
    simp only [List.nil_append, runChunks, scrapeSingleRange_filterFail env t c st hfail]
  | cons p pre ih =>
    intro post st
    simp only [List.cons_append, runChunks, List.append_eq]
    rw [ih]

lemma lookup_pair_cons (a k' : String) (v : Payload) (st : Store) :
    List.lookup k' ((a, v) :: st) = if k' = a then some v else List.lookup k' st := by
  simp only [List.lookup]
  by_cases h : k' = a
  · rw [if_pos h]
    have hb : (k' == a) = true := by simp [h]
    rw [hb]
  · rw [if_neg h]
    have hb : (k' == a) = false := by simp [h]
    rw [hb]

lemma lookup_filter_ne (k k' : String) (h : ¬ k' = k) :
    ∀ st : Store, (st.filter fun p => p.1 ≠ k).lookup k' = st.lookup k' := by
  intro st
  induction st with
  | nil => rfl
  | cons p st ih =>
    obtain ⟨a, v⟩ := p
    by_cases hp : a = k
    · rw [List.filter_cons_of_neg (by simp [hp])]
      rw [ih, lookup_pair_cons, if_neg (by rw [hp]; exact h)]
    · rw [List.filter_cons_of_pos (by simp [hp])]
      rw [lookup_pair_cons, lookup_pair_cons]
      by_cases hk : k' = a
      · rw [if_pos hk, if_pos hk]
      · rw [if_neg hk, if_neg hk, ih]

lemma lookup_storeWrite_self (st : Store) (k : String) (v : Payload) :
    (storeWrite st k v).lookup k = some v := by
  rw [storeWrite, lookup_pair_cons, if_pos rfl]

lemma lookup_storeWrite_ne (st : Store) (k k' : String) (v : Payload) (h : ¬ k' = k) :
    (storeWrite st k v).lookup k' = st.lookup k' := by
  rw [storeWrite, lookup_pair_cons, if_neg h]
  exact lookup_filter_ne k k' h st

lemma scrapeSingleRange_writeFail (env : Env) (t : String) (c : Int × Int) (st : Store)
    (h1 : env.dateFilterOk c = true) (h2 : env.writeOk c = false) :
    scrapeSingleRange env t c st = (none, st) := by
  unfold scrapeSingleRange
  rw [h1, h2]
  simp

lemma runChunks_lookup_untouched (env : Env) (t : String) :
    ∀ cs st k, (∀ c ∈ cs, chunkFilename c ≠ k) →
      ((runChunks env t cs st).2.lookup k = st.lookup k) := by
  intro cs
  induction cs with
  | nil => intro st k _; rfl
  | cons c cs ih =>
    intro st k hfresh
    simp only [runChunks]
    by_cases h1 : env.dateFilterOk c = true
    · by_cases h2 : env.writeOk c = true
      · rw [scrapeSingleRange_success env t c st h1 h2]
        rw [ih _ k fun c' hc' => hfresh c' (List.mem_cons_of_mem _ hc')]
        exact lookup_storeWrite_ne st _ k _
          fun he => hfresh c (List.mem_cons_self _ _) he.symm
      · simp only [Bool.not_eq_true] at h2
        rw [scrapeSingleRange_writeFail env t c st h1 h2]
        exact ih _ k fun c' hc' => hfresh c' (List.mem_cons_of_mem _ hc')
    · simp only [Bool.not_eq_true] at h1
      rw [scrapeSingleRange_filterFail env t c st h1]
      exact ih _ k fun c' hc' => hfresh c' (List.mem_cons_of_mem _ hc')

lemma storeWrite_keys_nodup (st : Store) (k : String) (v : Payload)
    (h : (st.map Prod.fst).Nodup) : ((storeWrite st k v).map Prod.fst).Nodup := by
  simp only [storeWrite, List.map_cons]
  refine List.nodup_cons.mpr ⟨?_, ?_⟩
  · intro hmem
    obtain ⟨p, hp, hpk⟩ := List.mem_map.mp hmem
    have hpf := List.mem_filter.mp hp
    simp only [ne_eq, decide_not, Bool.not_eq_true', decide_eq_false_iff_not] at hpf
    exact hpf.2 hpk
  · exact List.Nodup.sublist ((List.filter_sublist st).map Prod.fst) h

lemma runChunks_keys_nodup (env : Env) (t : String) :
    ∀ cs st, (st.map Prod.fst).Nodup → (((runChunks env t cs st).2.map Prod.fst)).Nodup := by
  intro cs
  induction cs with
  | nil => intro st h; exact h
  | cons c cs ih =>
    intro st h
    simp only [runChunks]
    by_cases h1 : env.dateFilterOk c = true
    · by_cases h2 : env.writeOk c = true
      · rw [scrapeSingleRange_success env t c st h1 h2]
        exact ih _ (storeWrite_keys_nodup st _ _ h)
      · simp only [Bool.not_eq_true] at h2
        rw [scrapeSingleRange_writeFail env t c st h1 h2]
        exact ih _ h
    · simp only [Bool.not_eq_true] at h1
      rw [scrapeSingleRange_filterFail env t c st h1]
      exact ih _ h

lemma runChunks_lookup_written (env : Env) (t : String) :
    ∀ cs st c, c ∈ cs → (cs.map chunkFilename).Nodup →
      env.dateFilterOk c = true → env.writeOk c = true →
      ((runChunks env t cs st).2.lookup (chunkFilename c) = some (chunkPayload env t c)) := by
  intro cs
  induction cs with
  | nil => intro st c hmem; exact absurd hmem (List.not_mem_nil c)
  | cons c0 cs ih =>
    intro st c hmem hnd h1 h2
    simp only [List.map_cons, List.nodup_cons] at hnd
    simp only [runChunks]
    rcases List.mem_cons.mp hmem with rfl | hmem'
    · rw [scrapeSingleRange_success env t c st h1 h2]
      rw [runChunks_lookup_untouched env t cs _ (chunkFilename c)
        (fun c' hc' he => hnd.1 (he ▸ List.mem_map_of_mem chunkFilename hc'))]
      exact lookup_storeWrite_self st _ _
    · by_cases h01 : env.dateFilterOk c0 = true
      · by_cases h02 : env.writeOk c0 = true
        · rw [scrapeSingleRange_success env t c0 st h01 h02]
          exact ih _ c hmem' hnd.2 h1 h2
        · simp only [Bool.not_eq_true] at h02
          rw [scrapeSingleRange_writeFail env t c0 st h01 h02]
          exact ih _ c hmem' hnd.2 h1 h2
      · simp only [Bool.not_eq_true] at h01
        rw [scrapeSingleRange_filterFail env t c0 st h01]
        exact ih _ c hmem' hnd.2 h1 h2

/-! ## Concrete fixtures for scenarios, counterexamples and witnesses -/

/-- A well-formed data row: every looked-up cell is present. -/
def goodCells : DataCells :=
  ⟨some " 10:00 ", some "USD", some (some "United States"), some 3,
    some "CPI", some "1.0", some "2.0", some "3.0"⟩

/-- Another well-formed data row (no flag span, no sentiment cell). -/
def goodCells2 : DataCells :=
  ⟨some "11:30", some "EUR", none, none, some "GDP", some "a", some "b", some "c"⟩

/-- A malformed data row: the required `td.time` cell is missing, so
field extraction raises. -/
def badCells : DataCells :=
  ⟨none, some "USD", some (some "US"), some 1, some "E", some "1", some "2", some "3"⟩

/-- The C3 scenario rows: a header dating the section 2024-01-05, a valid
row, a malformed row, a valid row. -/
def faultScenarioRows : List RawRow :=
  [.header "2024年01月05日", .data goodCells, .data badCells, .data goodCells2]

/-- Rows whose second header label is whitespace-only: unparsable as a
date, yet the scan keeps the previous section date. -/
def staleHeaderRows : List RawRow :=
  [.header "2024年01月05日", .header "  ", .data goodCells]

/-- A session whose initial page load crashes the driver. -/
def fatalEnv : Env :=
  { pageLoad := .fatal "driver crashed"
    dateFilterOk := fun _ => true
    obs := fun _ _ => ⟨none, 0⟩
    initH := fun _ => 0
    rowsAfter := fun _ _ => []
    writeOk := fun _ => true }

/-- A session whose page height grows on every scroll and never shows a
header row: the scroll loop exhausts all 30 attempts. -/
def growingEnv : Env :=
  { pageLoad := .ok
    dateFilterOk := fun _ => true
    obs := fun _ k => ⟨none, (k : Int) + 1⟩
    initH := fun _ => 0
    rowsAfter := fun _ _ => []
    writeOk := fun _ => true }

/-- A session whose page never grows: the scroll loop stalls at once. -/
def stillEnv : Env :=
  { pageLoad := .ok
    dateFilterOk := fun _ => true
    obs := fun _ _ => ⟨none, 0⟩
    initH := fun _ => 0
    rowsAfter := fun _ _ => []
    writeOk := fun _ => true }

/-- A session whose per-chunk date filter always raises. -/
def failFilterEnv : Env :=
  { pageLoad := .ok
    dateFilterOk := fun _ => false
    obs := fun _ _ => ⟨none, 0⟩
    initH := fun _ => 0
    rowsAfter := fun _ _ => []
    writeOk := fun _ => true }

/-! ## Claim theorems -/

/-- C1: for every window with `start ≤ end` and every `interval_days > 0`,
`_generate_date_chunks` terminates and returns an ordered, contiguous,
non-overlapping chunk list starting at the window start and ending at the
window end, whose union is exactly the window, with every non-last chunk
spanning exactly `interval_days` days and every chunk at most that; and
the window 2024-01-01..2024-01-10 with `interval_days = 7` yields exactly
the chunks 01-01..01-07 and 01-08..01-10. -/
theorem chunkPlanner_plan_correct (s e interval : Int) (hse : s ≤ e) (hi : 1 ≤ interval) :
    (∃ l, generateDateChunks s e interval = some l ∧ PlanOk s e interval l) ∧
    generateDateChunks (dateToDays 2024 1 1) (dateToDays 2024 1 10) 7 =
      some [(dateToDays 2024 1 1, dateToDays 2024 1 7),
        (dateToDays 2024 1 8, dateToDays 2024 1 10)] := by
  refine ⟨?_, by decide⟩
  unfold generateDateChunks
  exact genChunksF_ok e interval hi _ s hse (le_refl _)

/-- C1 witness: the guarantees instantiated at the window 0..9 with
interval 7. -/
theorem chunkPlanner_plan_correct_witness :
    (∃ l, generateDateChunks 0 9 7 = some l ∧ PlanOk 0 9 7 l) ∧
    generateDateChunks (dateToDays 2024 1 1) (dateToDays 2024 1 10) 7 =
      some [(dateToDays 2024 1 1, dateToDays 2024 1 7),
        (dateToDays 2024 1 8, dateToDays 2024 1 10)] :=
  chunkPlanner_plan_correct 0 9 7 (by decide) (by decide)

/-- C8 counterexample: on the inverted window 2024-01-02..2024-01-01 the
code returns the empty chunk list, not an `InvalidWindow` failure — no
error is reported on any invalid input. -/
theorem chunkPlanner_invalidWindow_counterexample :
    dateToDays 2024 1 1 < dateToDays 2024 1 2 ∧
    generateDateChunks (dateToDays 2024 1 2) (dateToDays 2024 1 1) 7 = some [] := by
  decide

/-- C8 amended: `_generate_date_chunks` performs no input validation.
With `start > end` it returns the empty list without any error; with
`interval_days ≤ 0` and `start ≤ end` the loop never terminates (no fuel
suffices), so no `InvalidWindow` error exists on either path. -/
theorem chunkPlanner_invalid_inputs :
    (∀ s e interval : Int, e < s → generateDateChunks s e interval = some []) ∧
    (∀ (e interval : Int) (fuel : Nat) (current : Int), current ≤ e → interval ≤ 0 →
      genChunksF e interval fuel current = none) := by
  constructor
  · intro s e interval h
    unfold generateDateChunks
    exact genChunksF_succ_gt e interval _ s (by omega)
  · intro e interval fuel current h1 h2
    exact genChunksF_no_fuel e interval h2 fuel current h1

/-- C8 witness: the empty result on the inverted window 5..3 and fuel
exhaustion with interval 0 on window 3..9. -/
theorem chunkPlanner_invalid_inputs_witness :
    generateDateChunks 5 3 7 = some [] ∧ genChunksF 9 0 4 3 = none :=
  ⟨chunkPlanner_invalid_inputs.1 5 3 7 (by decide),
    chunkPlanner_invalid_inputs.2 9 0 4 3 (by decide) (by decide)⟩

/-- C2 counterexample: the whitespace-only header label "  " cannot be
parsed as a date, yet the scan leaves the carried section date unchanged
instead of setting it to none (`if parts:` guards the assignment), so the
following data row still produces a record instead of being dropped. -/
theorem tableParser_headerReset_counterexample :
    specParseLabel "  " = none ∧
    headerStep "  " (some ⟨2024, 1, 5⟩) = some ⟨2024, 1, 5⟩ ∧
    parseData staleHeaderRows (dateToDays 2024 1 1) (dateToDays 2024 1 31) =
      [⟨"2024-01-05", "10:00", "2024-01-05 10:00", some "United States", "USD", 3,
        "CPI", "1.0", "2.0", "3.0"⟩] := by
  decide

/-- C2 amended: a SectionHeaderRow's label is stripped and
whitespace-split; when no token remains the carried section date is left
unchanged, and when the first token fails date parsing the carried date
becomes none; header rows never emit records. Every DataRow scanned while
the carried date is none, or whose inherited date lies outside the
supplied window, is dropped and produces no Record. -/
theorem tableParser_contextGating :
    (∀ label cur, pySplitWS (pyStrip label) = [] → headerStep label cur = cur) ∧
    (∀ label cur tk ts, pySplitWS (pyStrip label) = tk :: ts →
        headerStep label cur = strptimeHansYMD tk) ∧
    (∀ sd ed label rest cur,
        parseDataAux sd ed (.header label :: rest) cur =
          parseDataAux sd ed rest (headerStep label cur)) ∧
    (∀ sd ed pre (cells : DataCells) post cur, stateAfter pre cur = none →
        parseDataAux sd ed (pre ++ .data cells :: post) cur =
          parseDataAux sd ed (pre ++ post) cur) ∧
    (∀ sd ed pre (cells : DataCells) post cur dt, stateAfter pre cur = some dt →
        ¬ (sd ≤ dt.toDays ∧ dt.toDays ≤ ed) →
        parseDataAux sd ed (pre ++ .data cells :: post) cur =
          parseDataAux sd ed (pre ++ post) cur) := by
  refine ⟨?_, ?_, ?_, ?_, ?_⟩
  · intro label cur h
    simp only [headerStep, h]
  · intro label cur tk ts h
    simp only [headerStep, h]
  · intro sd ed label rest cur
    simp only [parseDataAux]
  · intro sd ed pre cells post cur hst
    rw [parseDataAux_append, parseDataAux_append]
    congr 1
    rw [hst]
    exact parse_drop_data sd ed cells post none (Or.inl rfl)
  · intro sd ed pre cells post cur dt hst hw
    rw [parseDataAux_append, parseDataAux_append]
    congr 1
    rw [hst]
    exact parse_drop_data sd ed cells post (some dt) (Or.inr (Or.inl ⟨dt, rfl, hw⟩))

/-- C2 witness: the amended behaviour at concrete inputs — a whitespace
label keeps the date 2024-01-05, a garbage token resets to none, and a
data row with no carried date is dropped. -/
theorem tableParser_contextGating_witness :
    headerStep "  " (some ⟨2024, 1, 5⟩) = some ⟨2024, 1, 5⟩ ∧
    headerStep "garbage" (some ⟨2024, 1, 5⟩) = strptimeHansYMD "garbage" ∧
    parseDataAux 0 5 ([] ++ RawRow.data goodCells :: []) none =
      parseDataAux 0 5 ([] ++ []) none :=
  ⟨tableParser_contextGating.1 "  " (some ⟨2024, 1, 5⟩) (by decide),
    tableParser_contextGating.2.1 "garbage" (some ⟨2024, 1, 5⟩) "garbage" [] (by decide),
    tableParser_contextGating.2.2.2.1 0 5 [] goodCells [] none rfl⟩

/-- C3: a data row whose field extraction fails contributes nothing and
changes nothing — the parse of any surrounding row list is exactly the
parse with that row deleted; and the scenario header(2024-01-05), valid,
malformed, valid parses to exactly two records, both dated 2024-01-05. -/
theorem tableParser_rowFaultIsolation :
    (∀ sd ed pre post (cells : DataCells) cur,
        (∀ dt, extractRecord dt cells = none) →
        parseDataAux sd ed (pre ++ .data cells :: post) cur =
          parseDataAux sd ed (pre ++ post) cur) ∧
    (parseData faultScenarioRows (dateToDays 2024 1 1) (dateToDays 2024 1 10)).length = 2 ∧
    (∀ r ∈ parseData faultScenarioRows (dateToDays 2024 1 1) (dateToDays 2024 1 10),
      r.date = "2024-01-05") := by
  refine ⟨?_, by decide, by decide⟩
  intro sd ed pre post cells cur hbad
  rw [parseDataAux_append, parseDataAux_append]
  congr 1
  cases hst : stateAfter pre cur with
  | none => exact parse_drop_data sd ed cells post none (Or.inl rfl)
  | some dt =>
    exact parse_drop_data sd ed cells post (some dt) (Or.inr (Or.inr ⟨dt, rfl, hbad dt⟩))

/-- C3 witness: deleting the malformed row `badCells` from a one-row list
leaves the parse unchanged. -/
theorem tableParser_rowFaultIsolation_witness :
    parseDataAux 0 5 ([] ++ RawRow.data badCells :: []) none =
      parseDataAux 0 5 ([] ++ []) none :=
  tableParser_rowFaultIsolation.1 0 5 [] [] badCells none fun _ => rfl

/-- C10: every record emitted by `_parse_data` carries a `timestamp`
field equal to the inherited section date formatted `YYYY-MM-DD`,
followed by one space, followed by the row's (stripped) time cell text —
the record's own `time` field — with that date inside the window. -/
theorem record_timestamp_field :
    ∀ rows sd ed r, r ∈ parseData rows sd ed →
      ∃ dt : Date, sd ≤ dt.toDays ∧ dt.toDays ≤ ed ∧ r.date = dt.format ∧
        r.timestamp = dt.format ++ " " ++ r.time := by
  intro rows sd ed r h
  exact parse_record_shape sd ed rows none r h

/-- C10 witness: the timestamp shape of the record parsed from the
2024-01-05 section. -/
theorem record_timestamp_field_witness :
    ∃ dt : Date, dateToDays 2024 1 1 ≤ dt.toDays ∧ dt.toDays ≤ dateToDays 2024 1 10 ∧
      (⟨"2024-01-05", "10:00", "2024-01-05 10:00", some "United States", "USD", 3,
        "CPI", "1.0", "2.0", "3.0"⟩ : Record).date = dt.format ∧
      (⟨"2024-01-05", "10:00", "2024-01-05 10:00", some "United States", "USD", 3,
        "CPI", "1.0", "2.0", "3.0"⟩ : Record).timestamp =
        dt.format ++ " " ++
          (⟨"2024-01-05", "10:00", "2024-01-05 10:00", some "United States", "USD", 3,
            "CPI", "1.0", "2.0", "3.0"⟩ : Record).time :=
  record_timestamp_field [.header "2024年01月05日", .data goodCells]
    (dateToDays 2024 1 1) (dateToDays 2024 1 10) _ (by decide)

/-- C4: `_scrape_single_range` is the unit of failure isolation: a chunk
whose date-filter step raises yields no filename and no written records
with the store untouched; removing such a chunk from the list leaves the
whole run unchanged; and for every oracle environment (every combination
of per-step failures) the run's produced files are a per-chunk
`filterMap`, so every chunk is attempted independently of the others. -/
theorem chunkRunner_failureIsolation :
    (∀ env t c st, env.dateFilterOk c = false →
        scrapeSingleRange env t c st = (none, st)) ∧
    (∀ env t (c : Int × Int) pre post st, env.dateFilterOk c = false →
        runChunks env t (pre ++ c :: post) st = runChunks env t (pre ++ post) st) ∧
    (∀ env t cs st, (runChunks env t cs st).1 =
        cs.filterMap fun c => (scrapeSingleRange env t c []).1) :=
  ⟨fun env t c st h => scrapeSingleRange_filterFail env t c st h,
    fun env t c pre post st h => runChunks_skip env t c h pre post st,
    fun env t cs st => runChunks_fst_filterMap env t cs st⟩

/-- C4 witness: with an always-failing date filter, the chunk result is
empty and the run over two chunks equals the run with the failed chunk
removed. -/
theorem chunkRunner_failureIsolation_witness :
    scrapeSingleRange failFilterEnv "t" (0, 1) [] = (none, []) ∧
    runChunks failFilterEnv "t" ([] ++ (0, 1) :: [(2, 3)]) [] =
      runChunks failFilterEnv "t" ([] ++ [(2, 3)]) [] :=
  ⟨chunkRunner_failureIsolation.1 failFilterEnv "t" (0, 1) [] rfl,
    chunkRunner_failureIsolation.2.1 failFilterEnv "t" (0, 1) [] [(2, 3)] [] rfl⟩

/-- C5 counterexample: with a session whose initial page load crashes the
driver, `run` ends in a re-raised error (`raise e`), not in a returned
summary — contradicting that every run completes with a structured
summary. -/
theorem rangeHarvester_raises_counterexample :
    runHarvest fatalEnv "t" [(0, 5)] [] = (.error "driver crashed", []) := rfl

/-- C5 amended: `run` re-raises a fatal initial page-load error to its
caller after closing the session, with nothing scraped; when the load
does not fatally fail, the chunk loop itself never raises: every chunk is
attempted and the generated-file summary is returned. -/
theorem rangeHarvester_run_outcomes :
    (∀ env t cs st msg, env.pageLoad = .fatal msg →
        runHarvest env t cs st = (.error msg, st)) ∧
    (∀ env t cs st, (∀ msg, env.pageLoad ≠ .fatal msg) →
        runHarvest env t cs st =
          (.ok (cs.filterMap fun c => (scrapeSingleRange env t c []).1),
            (runChunks env t cs st).2)) := by
  constructor
  · intro env t cs st msg h
    unfold runHarvest
    rw [h]
  · intro env t cs st h
    unfold runHarvest
    cases hpl : env.pageLoad with
    | fatal msg => exact absurd hpl (h msg)
    | ok =>
      show (Except.ok (runChunks env t cs st).1, (runChunks env t cs st).2) = _
      rw [runChunks_fst_filterMap]
    | timeout =>
      show (Except.ok (runChunks env t cs st).1, (runChunks env t cs st).2) = _
      rw [runChunks_fst_filterMap]

/-- C5 witness: the fatal session ends in an error, and a healthy session
over one chunk ends in a summary. -/
theorem rangeHarvester_run_outcomes_witness :
    runHarvest fatalEnv "t" [(0, 5)] [] = (.error "driver crashed", []) ∧
    runHarvest stillEnv "t" [(0, 1)] [] =
      (.ok ([(0, 1)].filterMap fun c => (scrapeSingleRange stillEnv "t" c []).1),
        (runChunks stillEnv "t" [(0, 1)] []).2) :=
  ⟨rangeHarvester_run_outcomes.1 fatalEnv "t" [(0, 5)] [] "driver crashed" rfl,
    rangeHarvester_run_outcomes.2 stillEnv "t" [(0, 1)] []
      fun _ h => PageLoad.noConfusion h⟩

/-- C6 counterexample: a page that grows on every scroll and never shows
the target date exhausts all 30 iterations (`maxedOut`), yet the chunk is
persisted and reported as a plain success — there is no `LoadTimeout`
failure and no `Failure("load_timeout")` outcome anywhere in the code. -/
theorem scrollLoader_timeout_counterexample :
    scrollToLoad (growingEnv.obs (0, 5)) (0, 5).2 (growingEnv.initH (0, 5)) =
      (.maxedOut, 30) ∧
    (scrapeSingleRange growingEnv "t" (0, 5) []).1 =
      some "1970-01-01_1970-01-06_Ecalendar.json" := by
  decide

/-- C6 amended: when the scroll loop exceeds `max_scroll_attempts`
without either stopping condition, it simply stops after lap `k`; the
chunk is then parsed from whatever content loaded by lap `k` and is
persisted and returned exactly like a successful chunk, with no failure
marker of any kind. -/
theorem scrollLoader_timeout_silent (env : Env) (t : String) (c : Int × Int) (st : Store)
    (k : Nat) (h1 : env.dateFilterOk c = true) (h2 : env.writeOk c = true)
    (hscroll : scrollToLoad (env.obs c) c.2 (env.initH c) = (.maxedOut, k)) :
    scrapeSingleRange env t c st =
      (some (chunkFilename c), storeWrite st (chunkFilename c) (chunkPayload env t c)) ∧
    chunkPayload env t c =
      ⟨t, fmtDay c.1, fmtDay c.2, (parseData (env.rowsAfter c k) c.1 c.2).length,
        parseData (env.rowsAfter c k) c.1 c.2⟩ := by
  refine ⟨scrapeSingleRange_success env t c st h1 h2, ?_⟩
  simp only [chunkPayload, hscroll]

/-- C6 witness: the silent-timeout behaviour on the growing page. -/
theorem scrollLoader_timeout_silent_witness :
    scrapeSingleRange growingEnv "t" (0, 5) [] =
      (some (chunkFilename (0, 5)),
        storeWrite [] (chunkFilename (0, 5)) (chunkPayload growingEnv "t" (0, 5))) ∧
    chunkPayload growingEnv "t" (0, 5) =
      ⟨"t", fmtDay (0, 5).1, fmtDay (0, 5).2,
        (parseData (growingEnv.rowsAfter (0, 5) 30) (0, 5).1 (0, 5).2).length,
        parseData (growingEnv.rowsAfter (0, 5) 30) (0, 5).1 (0, 5).2⟩ :=
  scrollLoader_timeout_silent growingEnv "t" (0, 5) [] 30 rfl rfl (by decide)

/-- C7: the scroll loop always terminates within the 30-iteration budget,
and it stops (exit `stalled`, a success path) at the first iteration
whose page height equals the previous height, provided the target date
was not hit up to and including that iteration — even if the target date
is never reached. -/
theorem scrollLoader_terminates (obs : Nat → ScrollObs) (endD initH : Int) :
    (scrollToLoad obs endD initH).2 ≤ 30 ∧
    (∀ m, m < 30 →
      (∀ j, j < m →
        dateStopHit endD (obs j) = false ∧ (obs j).height ≠ prevHeight obs initH j) →
      dateStopHit endD (obs m) = false → (obs m).height = prevHeight obs initH m →
      scrollToLoad obs endD initH = (.stalled, m + 1)) := by
  constructor
  · have h := scrollAux_count_le obs endD 30 initH 0
    simpa [scrollToLoad] using h
  · intro m hm hpre hstop hstall
    exact scrollAux_stall obs endD initH 30 0 m (Nat.zero_le m) (by omega)
      (fun j _ hj => hpre j hj) hstop hstall

/-- C7 witness: a page of constant height 5 with no header rows stalls
after the first iteration. -/
theorem scrollLoader_terminates_witness :
    (scrollToLoad (fun _ => ⟨none, 5⟩) 0 5).2 ≤ 30 ∧
    scrollToLoad (fun _ => ⟨none, 5⟩) 0 5 = (.stalled, 1) :=
  ⟨(scrollLoader_terminates (fun _ => ⟨none, 5⟩) 0 5).1,
    (scrollLoader_terminates (fun _ => ⟨none, 5⟩) 0 5).2 0 (by omega)
      (fun j hj => absurd hj (Nat.not_lt_zero j)) rfl rfl⟩

/-- C9: per-chunk persistence is deterministic and idempotent — the
artifact name is computed from the chunk's dates alone, so a second run
over the same chunk list returns the same file list, the store never
acquires duplicate filenames, and each successfully persisted chunk's
artifact holds exactly the second run's content. -/
theorem persistence_idempotent (env : Env) (t1 t2 : String) (cs : List (Int × Int))
    (st : Store) (hnd : (cs.map chunkFilename).Nodup) (hst : (st.map Prod.fst).Nodup) :
    (runChunks env t2 cs (runChunks env t1 cs st).2).1 = (runChunks env t1 cs st).1 ∧
    ((runChunks env t2 cs (runChunks env t1 cs st).2).2.map Prod.fst).Nodup ∧
    (∀ c ∈ cs, env.dateFilterOk c = true → env.writeOk c = true →
      (runChunks env t2 cs (runChunks env t1 cs st).2).2.lookup (chunkFilename c) =
        some (chunkPayload env t2 c)) := by
  refine ⟨runChunks_fst_const env t2 t1 cs _ st,
    runChunks_keys_nodup env t2 cs _ (runChunks_keys_nodup env t1 cs st hst), ?_⟩
  intro c hc h1 h2
  exact runChunks_lookup_written env t2 cs _ c hc hnd h1 h2

/-- C9 witness: two runs over the single chunk 0..1 against an empty
store. -/
theorem persistence_idempotent_witness :
    (runChunks stillEnv "t2" [(0, 1)] (runChunks stillEnv "t1" [(0, 1)] []).2).1 =
      (runChunks stillEnv "t1" [(0, 1)] []).1 ∧
    ((runChunks stillEnv "t2" [(0, 1)] (runChunks stillEnv "t1" [(0, 1)] []).2).2.map
      Prod.fst).Nodup ∧
    (∀ c ∈ [(0, 1)], stillEnv.dateFilterOk c = true → stillEnv.writeOk c = true →
      (runChunks stillEnv "t2" [(0, 1)]
        (runChunks stillEnv "t1" [(0, 1)] []).2).2.lookup (chunkFilename c) =
        some (chunkPayload stillEnv "t2" c)) :=
  persistence_idempotent stillEnv "t1" "t2" [(0, 1)] [] (by decide) (by decide)

end InvestEC
